import Mathlib

/-!
# Verification of the RAG demo (`src/app.py`, `src/vectordb.py`)

A shallow embedding of the two Python modules of the repository.

Modelling conventions:

* Python strings are `String`; numeric embedding vectors (float32 arrays of
  the sentence-transformer) are `List ℚ`, with exact rational arithmetic
  standing in for floating point where only exact identities (distance to
  itself is 0) are used.
* Exceptions are `Except` values; a Python function that may raise is
  embedded as an `Except`-valued function.
* External libraries are modelled at their call boundary:
  - the sentence-transformer is an abstract `embed : String → List ℚ`
    carried in the state and used unchanged for both documents and queries;
  - the Chroma collection is a list of records; `collection.add` appends,
    and `collection.query` returns, for each query embedding of the given
    batch, the `n` nearest records by squared Euclidean distance, nearest
    first — the four keys map to per-query nested lists, exactly as the
    Chroma API shapes them;
  - the LLM client (ChatOpenAI / ChatGroq / …) is an abstract
    `String → String` from rendered prompt to completion text; the trailing
    `StrOutputParser` returns that text unchanged;
  - `langchain_text_splitters.RecursiveCharacterTextSplitter` is modelled as
    a deterministic sliding-window splitter over the characters, which is
    faithful in the respects the claims use: it is a pure function of
    `(text, chunk_size, chunk_overlap)`, it yields `[]` on empty input and
    a single chunk when the text fits in one chunk.
-/

namespace RagDemo

/-! ## Decimal rendering of natural numbers (Python f-string `{n}`) -/

/-- Character for a decimal digit `d < 10` (`'0' + d`). -/
def digitChr (d : Nat) : Char := Char.ofNat (48 + d)

/-- Accumulator pass producing the decimal digits of `n` (most significant
first) in front of `acc`.  `fuel` bounds the recursion; any `fuel ≥ n`
is enough, and callers pass `fuel = n`. -/
def natChars : Nat → Nat → List Char → List Char
  | _, 0, acc => acc
  | 0, _ + 1, acc => acc
  | fuel + 1, n + 1, acc =>
      natChars fuel ((n + 1) / 10) (digitChr ((n + 1) % 10) :: acc)

/-- Decimal string of a natural number, as Python renders `f"{n}"`. -/
def natStr (n : Nat) : String :=
  if n = 0 then "0" else String.mk (natChars n n [])

/-- Decimal value of a digit character. -/
def charVal (c : Char) : Nat := c.toNat - 48

/-- Reading digits back: fold computing the value of a digit list on top of
an already-read prefix value `v`. -/
def valFrom (v : Nat) (cs : List Char) : Nat :=
  cs.foldl (fun a c => 10 * a + charVal c) v

theorem charVal_digitChr {m : Nat} (h : m < 10) : charVal (digitChr m) = m := by
  interval_cases m <;> rfl

theorem isDigit_digitChr {m : Nat} (h : m < 10) : (digitChr m).isDigit = true := by
  interval_cases m <;> rfl

theorem valFrom_natChars :
    ∀ (fuel n : Nat) (acc : List Char), n ≤ fuel →
      valFrom 0 (natChars fuel n acc) = valFrom n acc := by
  intro fuel
  induction fuel with
  | zero =>
      intro n acc h
      interval_cases n
      rfl
  | succ f ih =>
      intro n acc h
      cases n with
      | zero => rfl
      | succ m =>
          rw [natChars]
          have hdiv : (m + 1) / 10 < m + 1 := Nat.div_lt_self (Nat.succ_pos m) (by norm_num)
          have hle : (m + 1) / 10 ≤ f :=
            Nat.le_trans (Nat.lt_succ_iff.mp hdiv) (Nat.lt_succ_iff.mp (Nat.lt_of_lt_of_le (Nat.lt_succ_of_le (Nat.le_refl _)) h))
          rw [ih _ _ hle]
          show valFrom (10 * ((m + 1) / 10) + charVal (digitChr ((m + 1) % 10))) acc = _
          rw [charVal_digitChr (Nat.mod_lt _ (by norm_num))]
          congr 1
          omega

theorem mem_natChars :
    ∀ (fuel n : Nat) (acc : List Char) (c : Char), c ∈ natChars fuel n acc →
      c.isDigit = true ∨ c ∈ acc := by
  intro fuel
  induction fuel with
  | zero =>
      intro n acc c hc
      cases n with
      | zero => exact Or.inr hc
      | succ m => exact Or.inr hc
  | succ f ih =>
      intro n acc c hc
      cases n with
      | zero => exact Or.inr hc
      | succ m =>
          rw [natChars] at hc
          rcases ih _ _ _ hc with h | h
          · exact Or.inl h
          · rcases List.mem_cons.mp h with h | h
            · subst h
              exact Or.inl (isDigit_digitChr (Nat.mod_lt _ (by norm_num)))
            · exact Or.inr h

theorem valFrom_natStr (n : Nat) : valFrom 0 (natStr n).data = n := by
  by_cases h : n = 0
  · subst h; rfl
  · rw [natStr, if_neg h]
    show valFrom 0 (natChars n n []) = n
    rw [valFrom_natChars n n [] (Nat.le_refl n)]
    rfl

theorem natStr_injective : Function.Injective natStr := by
  intro a b h
  have := valFrom_natStr a
  rw [h, valFrom_natStr b] at this
  exact this.symm

theorem mem_natStr_isDigit {c : Char} {n : Nat} (h : c ∈ (natStr n).data) :
    c.isDigit = true := by
  by_cases hn : n = 0
  · subst hn
    simp only [natStr, if_pos rfl] at h
    cases h with
    | head => rfl
    | tail _ hmem => cases hmem
  · rw [natStr, if_neg hn] at h
    rcases mem_natChars n n [] c h with hd | hmem
    · exact hd
    · exact absurd hmem (List.not_mem_nil c)

/-! ## Chunk IDs (`vectordb.py`, line 80: `f"doc_{doc_id}_chunk_{i}"`) -/

/-- Character list of the chunk ID `doc_<d>_chunk_<i>`. -/
def chunkIdChars (d i : Nat) : List Char :=
  "doc_".data ++ (natStr d).data ++ "_chunk_".data ++ (natStr i).data

/-- The chunk ID string `f"doc_{doc_id}_chunk_{i}"` generated by
`VectorDB.add_documents` for chunk `i` of document `d`. -/
def chunkId (d i : Nat) : String := String.mk (chunkIdChars d i)

/-- Splitting at a separator character that occurs in neither prefix is
unambiguous. -/
theorem append_sep_inj {sep : Char} :
    ∀ (a a' b b' : List Char), sep ∉ a → sep ∉ a' →
      a ++ sep :: b = a' ++ sep :: b' → a = a' ∧ b = b' := by
  intro a
  induction a with
  | nil =>
      intro a' b b' _ ha' heq
      cases a' with
      | nil => simpa using heq
      | cons c cs =>
          simp only [List.nil_append, List.cons_append, List.cons.injEq] at heq
          exact absurd (heq.1 ▸ List.mem_cons_self c cs) ha'
  | cons c cs ih =>
      intro a' b b' ha ha' heq
      cases a' with
      | nil =>
          simp only [List.cons_append, List.nil_append, List.cons.injEq] at heq
          exact absurd (heq.1.symm ▸ List.mem_cons_self c cs) ha
      | cons c' cs' =>
          simp only [List.cons_append, List.cons.injEq] at heq
          obtain ⟨hc, htail⟩ := heq
          have hcs : sep ∉ cs := fun hm => ha (List.mem_cons_of_mem _ hm)
          have hcs' : sep ∉ cs' := fun hm => ha' (List.mem_cons_of_mem _ hm)
          obtain ⟨h1, h2⟩ := ih cs' b b' hcs hcs' htail
          exact ⟨by rw [hc, h1], h2⟩

/-- The underscore character. -/
def underscoreChar : Char := Char.ofNat 95

theorem underscore_not_mem_natStr (n : Nat) : underscoreChar ∉ (natStr n).data := by
  intro hmem
  have hd := mem_natStr_isDigit hmem
  have : underscoreChar.isDigit = false := by decide
  rw [this] at hd
  cases hd

theorem underscore_cons : "_chunk_".data = underscoreChar :: "chunk_".data := by decide

/-- The ID scheme is injective in the pair (document index, chunk index). -/
theorem chunkId_injective :
    ∀ d i d' i', chunkId d i = chunkId d' i' → d = d' ∧ i = i' := by
  intro d i d' i' h
  have hdata : chunkIdChars d i = chunkIdChars d' i' := by
    have := congrArg String.data h
    simpa [chunkId] using this
  unfold chunkIdChars at hdata
  rw [underscore_cons] at hdata
  have hpeel : (natStr d).data ++ (underscoreChar :: ("chunk_".data ++ (natStr i).data)) =
      (natStr d').data ++ (underscoreChar :: ("chunk_".data ++ (natStr i').data)) := by
    have h0 : "doc_".data ++ ((natStr d).data ++ (underscoreChar :: ("chunk_".data ++ (natStr i).data))) =
        "doc_".data ++ ((natStr d').data ++ (underscoreChar :: ("chunk_".data ++ (natStr i').data))) := by
      simpa [List.append_assoc] using hdata
    exact List.append_cancel_left h0
  obtain ⟨h1, h2⟩ := append_sep_inj _ _ _ _
    (underscore_not_mem_natStr d) (underscore_not_mem_natStr d') hpeel
  have h2' : (natStr i).data = (natStr i').data := List.append_cancel_left h2
  constructor
  · exact natStr_injective (String.ext h1)
  · exact natStr_injective (String.ext h2')

/-! ## Text splitting (`vectordb.py`, `VectorDB.chunk_text`)

`chunk_text` constructs a fresh `RecursiveCharacterTextSplitter` from its
parameters alone and calls `split_text`.  The splitter is external library
code; it is modelled as a character-level sliding window that advances by
`chunk_size - chunk_overlap` characters, which keeps the properties the
claims rely on: output is a pure function of `(text, chunk_size, overlap)`,
empty text yields no chunks, and text no longer than `chunk_size` yields a
single chunk equal to the text. -/

/-- Fuel-indexed window pass; callers pass the character count as fuel,
which suffices whenever `step ≥ 1`. -/
def splitWindows (chunkSize step : Nat) : Nat → List Char → List String
  | _, [] => []
  | 0, cs => [String.mk cs]
  | fuel + 1, cs =>
      if cs.length ≤ chunkSize then [String.mk cs]
      else String.mk (cs.take chunkSize) :: splitWindows chunkSize step fuel (cs.drop step)

/-- Model of `RecursiveCharacterTextSplitter(chunk_size, chunk_overlap).split_text(text)`. -/
def split_text (text : String) (chunkSize overlap : Nat) : List String :=
  splitWindows chunkSize (max 1 (chunkSize - overlap)) text.data.length text.data

/-! ## Vector store (`vectordb.py`, `VectorDB`) -/

/-- One stored record of the Chroma collection: chunk text, a copy of the
parent document metadata, the embedding vector and the generated ID. -/
structure ChunkRecord where
  id : String
  text : String
  metadata : List (String × String)
  embedding : List ℚ
deriving Repr, DecidableEq

/-- State of a `VectorDB` instance: the sentence-transformer embedding
model (abstract function from text to vector, loaded once in `__init__`
and reused for documents and queries alike) and the persistent Chroma
collection contents. -/
structure VectorDBState where
  embed : String → List ℚ
  collection : List ChunkRecord

/-- `VectorDB.chunk_text(self, text, chunk_size=500, overlap=50)`: a method
on the instance, but its body uses no instance state. -/
def VectorDB.chunk_text (db : VectorDBState) (text : String)
    (chunkSize overlap : Nat) : List String :=
  let _ := db
  split_text text chunkSize overlap

/-- A Python value passed as an element of the `documents` list: `main`
passes plain strings, the intended callers pass dicts with optional
`"content"` and `"metadata"` keys. -/
inductive PyDoc
  | pystr (s : String)
  | pydict (content : Option String) (metadata : Option (List (String × String)))
deriving Repr, DecidableEq

/-- Python exceptions that the embedded fragments can raise. -/
inductive PyError
  | attributeError (msg : String)
  | typeError (msg : String)
deriving Repr, DecidableEq

/-- The display text of a Python exception reaching a handler. -/
def PyError.message : PyError → String
  | .attributeError m => "AttributeError: " ++ m
  | .typeError m => "TypeError: " ++ m

/-- The `AttributeError` raised by `doc.get(...)` when `doc` is a `str`. -/
def strGetError : PyError :=
  .attributeError "str object has no attribute get"

/-- The chunks `add_documents` produces for one document body
(`self.chunk_text(content)` with the default parameters 500 / 50). -/
def chunksOf (content : String) : List String := split_text content 500 50

/-- Records stored for document number `d` with body `content`: chunk `i`
gets ID `doc_<d>_chunk_<i>`, a copy of the document metadata
(`[metadata] * len(chunks)`), and the embedding of the chunk. -/
def recordsForDoc (embed : String → List ℚ) (d : Nat) (content : String)
    (metadata : List (String × String)) : List ChunkRecord :=
  (chunksOf content).enum.map fun p =>
    { id := chunkId d p.1, text := p.2, metadata := metadata, embedding := embed p.2 }

/-- Loop body of `VectorDB.add_documents` from document index `d` on:
`doc.get("content", "")` / `doc.get("metadata", {})` on a dict, an
`AttributeError` on a plain string; chunks, IDs and embeddings are
computed and appended to the collection. -/
def addDocumentsGo (st : VectorDBState) (d : Nat) :
    List PyDoc → Except PyError VectorDBState
  | [] => .ok st
  | .pystr _ :: _ => .error strGetError
  | .pydict content metadata :: rest =>
      let recs := recordsForDoc st.embed d (content.getD "") (metadata.getD [])
      addDocumentsGo { st with collection := st.collection ++ recs } (d + 1) rest

/-- `VectorDB.add_documents(self, documents)` (lines 63–92): enumerate the
documents from index 0 and store each one's chunks. -/
def VectorDB.add_documents (st : VectorDBState) (documents : List PyDoc) :
    Except PyError VectorDBState :=
  addDocumentsGo st 0 documents

/-- Squared Euclidean distance, the default Chroma collection metric. -/
def sqDist (u v : List ℚ) : ℚ :=
  (List.zipWith (fun a b => (a - b) ^ 2) u v).sum

/-- Stable insertion of a record into a list sorted by distance to `q`. -/
def insertByDist (q : List ℚ) (r : ChunkRecord) :
    List ChunkRecord → List ChunkRecord
  | [] => [r]
  | x :: xs =>
      if sqDist r.embedding q < sqDist x.embedding q then r :: x :: xs
      else x :: insertByDist q r xs

/-- The collection sorted by distance to the query embedding, nearest
first (stable). -/
def sortByDist (q : List ℚ) (coll : List ChunkRecord) : List ChunkRecord :=
  coll.foldr (insertByDist q) []

/-- One query row of a Chroma answer: the `n` nearest stored records for
one query embedding, nearest first, as four parallel sequences. -/
structure QueryRow where
  documents : List String
  metadatas : List (List (String × String))
  distances : List ℚ
  ids : List String
deriving Repr, DecidableEq

/-- The row of results for one query embedding. -/
def queryRow (coll : List ChunkRecord) (qe : List ℚ) (nResults : Nat) : QueryRow :=
  let hits := (sortByDist qe coll).take nResults
  { documents := hits.map (fun r => r.text)
    metadatas := hits.map (fun r => r.metadata)
    distances := hits.map (fun r => sqDist r.embedding qe)
    ids := hits.map (fun r => r.id) }

/-- The `collection.query` result: each of the four keys maps to one
inner list per query embedding of the batch (`documents` is
`[[...], ...]`), as the Chroma API shapes it. -/
structure QueryResult where
  documents : List (List String)
  metadatas : List (List (List (String × String)))
  distances : List (List ℚ)
  ids : List (List String)
deriving Repr, DecidableEq

/-- `collection.query(query_embeddings, n_results, include=[...])`: one
result row per query embedding. -/
def collectionQuery (coll : List ChunkRecord) (queryEmbeddings : List (List ℚ))
    (nResults : Nat) : QueryResult :=
  { documents := queryEmbeddings.map fun qe => (queryRow coll qe nResults).documents
    metadatas := queryEmbeddings.map fun qe => (queryRow coll qe nResults).metadatas
    distances := queryEmbeddings.map fun qe => (queryRow coll qe nResults).distances
    ids := queryEmbeddings.map fun qe => (queryRow coll qe nResults).ids }

/-- `VectorDB.search(self, query, n_results)` (lines 94–122): embed the
query as a one-element batch (`encode([query]).tolist()`), call
`collection.query`, and return its result unchanged — all four keys are
present, so the check on line 113 always takes the first branch, and the
per-query nesting is passed through to the caller. -/
def VectorDB.search (db : VectorDBState) (query : String) (nResults : Nat) :
    QueryResult :=
  collectionQuery db.collection [db.embed query] nResults

/-! ## Document loader (`app.py`, `load_documents`) -/

/-- What the format-appropriate external library yields for a file on a
successful parse: the UTF-8 text for `open(...).read()`, the page texts in
page order for PyMuPDF, the paragraph texts in document order for
python-docx. -/
inductive FileData
  | txtData (text : String)
  | pdfData (pages : List String)
  | docxData (paragraphs : List String)
deriving Repr, DecidableEq

/-- One entry of `os.listdir(data_dir)`: its name, whether
`os.path.isfile` holds, and the outcome of handing the file to the loader
selected by its extension (`.error msg` models the library raising). -/
structure DirEntry where
  name : String
  isFile : Bool
  parse : Except String FileData
deriving Repr

/-- ASCII model of `str.lower()` on a character. -/
def asciiLower (c : Char) : Char :=
  if 65 ≤ c.toNat ∧ c.toNat ≤ 90 then Char.ofNat (c.toNat + 32) else c

/-- The dot character. -/
def dotChar : Char := Char.ofNat 46

/-- Characters after the last dot (the whole name if there is no dot):
`filename.lower().split(".")[-1]`. -/
def lastExtAux : List Char → List Char → List Char
  | [], acc => acc
  | c :: cs, acc =>
      if c = dotChar then lastExtAux cs [] else lastExtAux cs (acc ++ [c])

/-- `filename.lower().split(".")[-1]` (line 37). -/
def extOf (name : String) : String :=
  String.mk (lastExtAux (name.data.map asciiLower) [])

/-- The extensions the loader dispatches on (lines 39, 44, 51). -/
def supportedExt (ext : String) : Bool :=
  ext = "txt" || ext = "pdf" || ext = "doc" || ext = "docx"

/-- The text `load_documents` assembles from a successfully parsed file:
the raw text, `text += page.get_text()` over the pages, or
`"\n".join(paragraphs)`. -/
def assembleText : FileData → String
  | .txtData s => s
  | .pdfData pages => pages.foldl (fun a p => a ++ p) ""
  | .docxData ps => String.intercalate "\n" ps

/-- One iteration of the `load_documents` loop: the text appended to
`results` (if any) and the lines printed.  Directory entries that are not
regular files are skipped silently; unsupported extensions are skipped
with a diagnostic; a raising loader is caught (`except Exception`),
logged, and the file skipped. -/
def loadStep (e : DirEntry) : Option String × List String :=
  if e.isFile then
    if supportedExt (extOf e.name) then
      match e.parse with
      | .ok data => (some (assembleText data), [])
      | .error msg => (none, ["Error loading " ++ e.name ++ ": " ++ msg])
    else (none, ["Unsupported file type skipped: " ++ e.name])
  else (none, [])

/-- `load_documents(data_dir)` (lines 18–62) over the directory listing:
returns the collected texts and the printed diagnostics. -/
def load_documents (entries : List DirEntry) : List String × List String :=
  entries.foldl
    (fun acc e =>
      let r := loadStep e
      (acc.1 ++ r.1.toList, acc.2 ++ r.2))
    ([], [])

/-! ## LLM provider selection (`app.py`, `RAGAssistant._initialize_llm`) -/

/-- The environment variables the constructor consults.  `none` models an
unset variable; Python's `if os.getenv(...)` is truthiness, so a set but
empty string also fails the check. -/
structure Env where
  openaiKey : Option String
  groqKey : Option String
  googleKey : Option String
  pplxKey : Option String
  openaiModel : Option String
  groqModel : Option String
  googleModel : Option String
  pplxModel : Option String

/-- Truthiness of an `os.getenv` result. -/
def isTruthy : Option String → Bool
  | none => false
  | some s => !s.isEmpty

/-- `os.getenv(var, default)`: the default applies only when the variable
is unset. -/
def getenvD (v : Option String) (d : String) : String := v.getD d

/-- The chat client `_initialize_llm` constructs, with its model name. -/
inductive LLMChoice
  | openai (model : String)
  | groq (model : String)
  | google (model : String)
  | perplexity (model : String)
deriving Repr, DecidableEq

/-- The `ValueError` message of `_initialize_llm` (lines 140–142). -/
def noKeyMsg : String :=
  "No valid API key found. Please set one of: OPENAI_API_KEY, GROQ_API_KEY, or GOOGLE_API_KEY in your .env file"

/-- `RAGAssistant._initialize_llm` (lines 101–142): probe
`OPENAI_API_KEY`, then `GROQ_API_KEY`, then `GOOGLE_API_KEY`, then
`PPLX_API_KEY`; the first truthy key selects the client and its model;
raise `ValueError` otherwise. -/
def initialize_llm (env : Env) : Except String LLMChoice :=
  if isTruthy env.openaiKey then
    .ok (.openai (getenvD env.openaiModel "gpt-4o-mini"))
  else if isTruthy env.groqKey then
    .ok (.groq (getenvD env.groqModel "llama-3.1-8b-instant"))
  else if isTruthy env.googleKey then
    .ok (.google (getenvD env.googleModel "gemini-2.0-flash"))
  else if isTruthy env.pplxKey then
    .ok (.perplexity (getenvD env.pplxModel "gemini-1.5-flash"))
  else
    .error noKeyMsg

/-! ## The assistant (`app.py`, `RAGAssistant`) -/

/-- State of a constructed `RAGAssistant`: the provider choice fixed at
construction, the chat client behaviour (abstract prompt-to-completion
function; `StrOutputParser` returns the completion text unchanged), and
the vector database. -/
structure RAGState where
  choice : LLMChoice
  llm : String → String
  db : VectorDBState

/-- The prompt template literal of `__init__` (lines 84–94), split at its
two placeholders `{context}` and `{question}`. -/
def templatePart1 : String :=
  "\n            Use the following context to answer the user\x27s question.\n            \n            Context: "

def templatePart2 : String :=
  "\n\n            Question: "

def templatePart3 : String :=
  "\n\n            Answer as clearly and concisely as possible, referring only to the given context.\n            "

/-- Rendering the `ChatPromptTemplate`: simultaneous substitution of the
two placeholders into the fixed literal. -/
def renderPrompt (context question : String) : String :=
  templatePart1 ++ context ++ templatePart2 ++ question ++ templatePart3

/-- `RAGAssistant.__init__` (lines 71–99): select the provider (raising if
no key is present), keep the vector database and chain for the lifetime of
the object.  `client` gives the behaviour of the external chat model
constructed for a choice. -/
def RAGAssistant.mkAssistant (env : Env) (client : LLMChoice → String → String)
    (db : VectorDBState) : Except String RAGState :=
  match initialize_llm env with
  | .error e => .error e
  | .ok choice => .ok { choice := choice, llm := client choice, db := db }

/-- Python `"\n".join(xs)` applied to the value
`search_results.get("documents", [])`, whose elements are the per-query
rows — list values, not strings.  `str.join` yields the empty string on
an empty sequence and raises `TypeError` at item 0 otherwise, because
item 0 is a list, not a `str`. -/
def joinDocumentRows : List (List String) → Except PyError String
  | [] => .ok ""
  | _ :: _ => .error (.typeError "sequence item 0: expected str instance, list found")

/-- `RAGAssistant.invoke(self, input, n_results=3)` (lines 153–174):
`context_chunks` is the nested `documents` value of the query result;
`"\n".join(context_chunks)` is `str.join` over its list-valued items;
only if a context string is produced is the chain invoked on the rendered
template, its text returned unchanged. -/
def RAGAssistant.invoke (st : RAGState) (inp : String) (nResults : Nat) :
    Except PyError String :=
  let searchResults := VectorDB.search st.db inp nResults
  let contextChunks := searchResults.documents
  match joinDocumentRows contextChunks with
  | .error e => .error e
  | .ok contextStr => .ok (st.llm (renderPrompt contextStr inp))

/-- `RAGAssistant.add_documents` (lines 144–151) delegates to the vector
database. -/
def RAGAssistant.add_documents (st : RAGState) (docs : List PyDoc) :
    Except PyError RAGState :=
  match VectorDB.add_documents st.db docs with
  | .ok db => .ok { st with db := db }
  | .error e => .error e

/-! ## The demo driver (`app.py`, `main`) -/

/-- Attribute lookup on a `RAGAssistant` instance, restricted to
string-to-string callables.  The class body defines `__init__`,
`_initialize_llm`, `add_documents` and `invoke`; in particular there is no
attribute named `query`. -/
def lookupMethod (n : String) : Option (RAGState → String → Except PyError String) :=
  if n = "invoke" then some (fun st q => RAGAssistant.invoke st q 3) else none

/-- How the interactive loop of `main` (lines 191–199) ends. -/
inductive LoopEnd
  | finished
  | uncaught (errMsg : String)
  | endOfInput
deriving Repr, DecidableEq

/-- The interactive loop of `main` over a list of input lines: `quit`
(case-insensitively) terminates; any other line is answered via the
attribute `query` of the assistant, whose lookup fails.  Returns the
printed answers and how the loop ended; an `uncaught` end is what reaches
the `except` block of `main`. -/
def runLoop (st : RAGState) : List String → List String × LoopEnd
  | [] => ([], .endOfInput)
  | line :: rest =>
      if String.mk (line.data.map asciiLower) = "quit" then ([], .finished)
      else
        match lookupMethod "query" with
        | some f =>
            match f st line with
            | .ok ans =>
                let (ps, e) := runLoop st rest
                (ans :: ps, e)
            | .error pe => ([], .uncaught pe.message)
        | none =>
            ([], .uncaught "AttributeError: RAGAssistant object has no attribute query")

/-- The ingestion path of `main` (lines 184–189): the raw strings returned
by `load_documents` are passed, as plain Python strings, straight to
`add_documents`. -/
def mainIngest (entries : List DirEntry) (st : RAGState) :
    Except PyError RAGState :=
  RAGAssistant.add_documents st (((load_documents entries).1).map PyDoc.pystr)

/-! ## Helper lemmas and sample states -/

/-- A sample vector database state: trivial embedding model, empty
collection. -/
def sampleDB : VectorDBState := ⟨fun _ => [], []⟩

/-- A sample constructed assistant over the empty store. -/
def sampleAssistant : RAGState := ⟨.openai "gpt-4o-mini", fun _ => "", sampleDB⟩

/-- A sample assistant over a store holding a single chunk record whose
embedding the model also assigns to every query. -/
def skyAssistant : RAGState :=
  ⟨.openai "gpt-4o-mini", fun _ => "",
    ⟨fun _ => [1, 2], [⟨"doc_0_chunk_0", "The sky is blue.", [], [1, 2]⟩]⟩⟩

/-- Distance of a vector to itself is zero. -/
theorem sqDist_self (v : List ℚ) : sqDist v v = 0 := by
  induction v with
  | nil => rfl
  | cons a t ih =>
      simp only [sqDist, List.zipWith_cons_cons, List.sum_cons] at ih ⊢
      rw [ih]
      ring

/-- Record IDs generated from document index `d` on, per the ID scheme. -/
def idsFromIdx : Nat → List PyDoc → List String
  | _, [] => []
  | d, .pystr _ :: rest => idsFromIdx (d + 1) rest
  | d, .pydict c _ :: rest =>
      (List.range (chunksOf (c.getD "")).length).map (chunkId d) ++ idsFromIdx (d + 1) rest

/-- Records generated from document index `d` on (the `pystr` case is
unreachable when `add_documents` succeeds). -/
def recordsFromIdx (embed : String → List ℚ) : Nat → List PyDoc → List ChunkRecord
  | _, [] => []
  | d, .pystr _ :: rest => recordsFromIdx embed (d + 1) rest
  | d, .pydict c m :: rest =>
      recordsForDoc embed d (c.getD "") (m.getD []) ++ recordsFromIdx embed (d + 1) rest

theorem map_id_recordsForDoc (e : String → List ℚ) (d : Nat) (content : String)
    (md : List (String × String)) :
    (recordsForDoc e d content md).map (fun r => r.id) =
      (List.range (chunksOf content).length).map (chunkId d) := by
  unfold recordsForDoc
  rw [List.map_map]
  have h1 : ((fun r : ChunkRecord => r.id) ∘ fun p : Nat × String =>
      ({ id := chunkId d p.1, text := p.2, metadata := md, embedding := e p.2 } : ChunkRecord)) =
      (chunkId d) ∘ Prod.fst := rfl
  rw [h1, ← List.map_map, List.enum_map_fst]

theorem map_id_recordsFromIdx (e : String → List ℚ) :
    ∀ (docs : List PyDoc) (d : Nat),
      (recordsFromIdx e d docs).map (fun r => r.id) = idsFromIdx d docs := by
  intro docs
  induction docs with
  | nil => intro d; rfl
  | cons x rest ih =>
      intro d
      cases x with
      | pystr s => simpa [recordsFromIdx, idsFromIdx] using ih (d + 1)
      | pydict c m =>
          simp only [recordsFromIdx, idsFromIdx, List.map_append, ih (d + 1),
            map_id_recordsForDoc]

theorem mem_idsFromIdx :
    ∀ (docs : List PyDoc) (d : Nat) (s : String), s ∈ idsFromIdx d docs →
      ∃ d' i, d ≤ d' ∧ s = chunkId d' i := by
  intro docs
  induction docs with
  | nil => intro d s h; cases h
  | cons x rest ih =>
      intro d s h
      cases x with
      | pystr t =>
          obtain ⟨d', i, hle, hs⟩ := ih (d + 1) s h
          exact ⟨d', i, Nat.le_of_succ_le hle, hs⟩
      | pydict c m =>
          rw [idsFromIdx] at h
          rcases List.mem_append.mp h with h | h
          · obtain ⟨i, _, hi⟩ := List.mem_map.mp h
            exact ⟨d, i, Nat.le_refl d, hi.symm⟩
          · obtain ⟨d', i, hle, hs⟩ := ih (d + 1) s h
            exact ⟨d', i, Nat.le_of_succ_le hle, hs⟩

theorem idsFromIdx_nodup : ∀ (docs : List PyDoc) (d : Nat), (idsFromIdx d docs).Nodup := by
  intro docs
  induction docs with
  | nil => intro d; exact List.nodup_nil
  | cons x rest ih =>
      intro d
      cases x with
      | pystr s => exact ih (d + 1)
      | pydict c m =>
          refine List.Nodup.append ?_ (ih (d + 1)) ?_
          · refine List.Nodup.map ?_ (List.nodup_range _)
            intro i j hij
            exact (chunkId_injective d i d j hij).2
          · intro s hs hs'
            obtain ⟨i, _, hi⟩ := List.mem_map.mp hs
            obtain ⟨d', i', hle, hs'⟩ := mem_idsFromIdx rest (d + 1) s hs'
            rw [← hi] at hs'
            have := (chunkId_injective d' i' d i hs'.symm).1
            omega

/-- The processing loop of `add_documents` on well-formed (dict) documents:
it succeeds and appends exactly the generated records. -/
theorem addDocumentsGo_spec :
    ∀ (docs : List PyDoc) (st : VectorDBState) (d : Nat),
      (∀ x ∈ docs, ∃ c m, x = PyDoc.pydict c m) →
      addDocumentsGo st d docs =
        .ok ⟨st.embed, st.collection ++ recordsFromIdx st.embed d docs⟩ := by
  intro docs
  induction docs with
  | nil =>
      intro st d _
      simp [addDocumentsGo, recordsFromIdx]
  | cons x rest ih =>
      intro st d hdict
      obtain ⟨c, m, hx⟩ := hdict x (List.mem_cons_self x rest)
      subst hx
      rw [addDocumentsGo]
      rw [ih _ (d + 1) (fun y hy => hdict y (List.mem_cons_of_mem _ hy))]
      simp [recordsFromIdx, List.append_assoc]

theorem load_documents_fold :
    ∀ (entries : List DirEntry) (a b : List String),
      entries.foldl
        (fun acc e =>
          let r := loadStep e
          (acc.1 ++ r.1.toList, acc.2 ++ r.2))
        (a, b) =
      (a ++ entries.filterMap (fun e => (loadStep e).1),
       b ++ (entries.map (fun e => (loadStep e).2)).flatten) := by
  intro entries
  induction entries with
  | nil => intro a b; simp
  | cons e rest ih =>
      intro a b
      rw [List.foldl_cons, ih]
      rcases h : (loadStep e).1 with _ | t <;>
        simp [List.filterMap_cons, h, List.append_assoc]

theorem load_documents_eq (entries : List DirEntry) :
    load_documents entries =
      (entries.filterMap (fun e => (loadStep e).1),
       (entries.map (fun e => (loadStep e).2)).flatten) := by
  rw [load_documents, load_documents_fold]
  simp

/-! ## Claims -/

/-- C5: `load_documents` never aborts the batch for one bad file.
Conjuncts, over an arbitrary directory listing: (1) the returned list has
exactly one raw text per successfully loaded file; (2) a file whose loader
yields nothing (corrupt, unsupported, or not a regular file) is skipped
while the rest of the batch is processed exactly as without it; (3) a
per-file loader error is caught and logged and contributes no text; (4) an
unsupported extension is skipped with a diagnostic.  The loader is a total
function of the listing, so no input directory makes it raise. -/
theorem C5_loader_skips_bad_files :
    (∀ entries : List DirEntry,
      (load_documents entries).1.length =
        entries.countP (fun e => ((loadStep e).1).isSome))
    ∧ (∀ (xs ys : List DirEntry) (e : DirEntry), (loadStep e).1 = none →
      (load_documents (xs ++ e :: ys)).1 = (load_documents xs).1 ++ (load_documents ys).1)
    ∧ (∀ (e : DirEntry) (msg : String), e.isFile = true →
      supportedExt (extOf e.name) = true → e.parse = .error msg →
      loadStep e = (none, ["Error loading " ++ e.name ++ ": " ++ msg]))
    ∧ (∀ e : DirEntry, e.isFile = true → supportedExt (extOf e.name) = false →
      loadStep e = (none, ["Unsupported file type skipped: " ++ e.name])) := by
  refine ⟨?_, ?_, ?_, ?_⟩
  · intro entries
    rw [load_documents_eq]
    induction entries with
    | nil => rfl
    | cons e rest ih =>
        rcases h : (loadStep e).1 with _ | t <;>
          simp [List.filterMap_cons, h, List.countP_cons, ih]
  · intro xs ys e he
    rw [load_documents_eq, load_documents_eq, load_documents_eq]
    simp [List.filterMap_append, List.filterMap_cons, he]
  · intro e msg hf hs hp
    simp [loadStep, hf, hs, hp]
  · intro e hf hs
    simp [loadStep, hf, hs]

/-- C5 witness: a directory with two valid text files and one corrupt PDF
between them yields exactly the two texts. -/
theorem C5_loader_skips_bad_files_witness :
    (load_documents
        [⟨"a.txt", true, .ok (.txtData "alpha")⟩,
         ⟨"broken.pdf", true, .error "cannot open broken document"⟩,
         ⟨"b.txt", true, .ok (.txtData "beta")⟩]).1 =
      (load_documents [⟨"a.txt", true, .ok (.txtData "alpha")⟩]).1 ++
        (load_documents [⟨"b.txt", true, .ok (.txtData "beta")⟩]).1
    ∧ (load_documents
        [⟨"a.txt", true, .ok (.txtData "alpha")⟩,
         ⟨"broken.pdf", true, .error "cannot open broken document"⟩,
         ⟨"b.txt", true, .ok (.txtData "beta")⟩]).1.length = 2 := by
  constructor
  · exact C5_loader_skips_bad_files.2.1
      [⟨"a.txt", true, .ok (.txtData "alpha")⟩]
      [⟨"b.txt", true, .ok (.txtData "beta")⟩]
      ⟨"broken.pdf", true, .error "cannot open broken document"⟩ (by decide)
  · rw [C5_loader_skips_bad_files.1
      [⟨"a.txt", true, .ok (.txtData "alpha")⟩,
       ⟨"broken.pdf", true, .error "cannot open broken document"⟩,
       ⟨"b.txt", true, .ok (.txtData "beta")⟩]]
    decide

/-- C6: searching an empty collection does not fail, and the results it
returns are empty, for every query and every requested result count: the
single query row consists of four empty sequences, so the full returned
value is the four keys each holding that one empty row. -/
theorem C6_search_empty_collection (embed : String → List ℚ) (query : String) (k : Nat) :
    queryRow [] (embed query) k =
      { documents := [], metadatas := [], distances := [], ids := [] }
    ∧ VectorDB.search ⟨embed, []⟩ query k =
      { documents := [[]], metadatas := [[]], distances := [[]], ids := [[]] } := by
  cases k <;> exact ⟨rfl, rfl⟩

/-- C7: if exactly one chunk is stored and its embedding is `v`, a search
whose query embedding is `v` returns that chunk as the nearest result with
distance 0. -/
theorem C7_round_trip (embed : String → List ℚ) (r : ChunkRecord) (query : String)
    (k : Nat) (hk : 0 < k) (hq : embed query = r.embedding) :
    queryRow [r] (embed query) k =
      { documents := [r.text], metadatas := [r.metadata],
        distances := [0], ids := [r.id] }
    ∧ VectorDB.search ⟨embed, [r]⟩ query k =
      { documents := [[r.text]], metadatas := [[r.metadata]],
        distances := [[0]], ids := [[r.id]] } := by
  cases k with
  | zero => cases hk
  | succ n =>
      have hrow : queryRow [r] (embed query) (n + 1) =
          { documents := [r.text], metadatas := [r.metadata],
            distances := [0], ids := [r.id] } := by
        show QueryRow.mk _ _ _ _ = _
        simp [queryRow, sortByDist, insertByDist, hq, sqDist_self, List.take]
      refine ⟨hrow, ?_⟩
      show QueryResult.mk _ _ _ _ = _
      simp [VectorDB.search, collectionQuery, hrow]

/-- C7 witness at a concrete store. -/
theorem C7_round_trip_witness :
    queryRow [⟨"doc_0_chunk_0", "The sky is blue.", [], [1, 2]⟩] [1, 2] 3 =
      { documents := ["The sky is blue."], metadatas := [[]],
        distances := [0], ids := ["doc_0_chunk_0"] }
    ∧ VectorDB.search
        ⟨fun _ => [1, 2], [⟨"doc_0_chunk_0", "The sky is blue.", [], [1, 2]⟩]⟩
        "What color is the sky?" 3 =
      { documents := [["The sky is blue."]], metadatas := [[[]]],
        distances := [[0]], ids := [["doc_0_chunk_0"]] } :=
  C7_round_trip (fun _ => [1, 2]) ⟨"doc_0_chunk_0", "The sky is blue.", [], [1, 2]⟩
    "What color is the sky?" 3 (by decide) rfl

/-- C8: chunking is deterministic — the output of `chunk_text` is the same
for two calls with identical arguments, whatever the instance state at
either call (the method reads no mutable state, so the result is a
function of `(text, chunk_size, overlap)` alone). -/
theorem C8_chunk_text_deterministic (db db' : VectorDBState) (text : String)
    (chunkSize overlap : Nat) :
    VectorDB.chunk_text db text chunkSize overlap =
        VectorDB.chunk_text db text chunkSize overlap
    ∧ VectorDB.chunk_text db text chunkSize overlap =
        VectorDB.chunk_text db' text chunkSize overlap :=
  ⟨rfl, rfl⟩

/-- C4: provider selection at construction probes OpenAI, then Groq, then
Google, then Perplexity; the first present (truthy) credential fixes the
provider and its model in the constructed assistant; with no credential
present, construction fails with the configuration error listing the
required credentials.  Selection is a single pass of the `if`/`elif`
chain — the constructed state carries the choice unchanged, and the error
is returned directly with no retry. -/
theorem C4_provider_priority (env : Env) (client : LLMChoice → String → String)
    (db : VectorDBState) :
    (isTruthy env.openaiKey = true →
      RAGAssistant.mkAssistant env client db =
        .ok { choice := .openai (getenvD env.openaiModel "gpt-4o-mini"),
              llm := client (.openai (getenvD env.openaiModel "gpt-4o-mini")), db := db })
    ∧ (isTruthy env.openaiKey = false → isTruthy env.groqKey = true →
      RAGAssistant.mkAssistant env client db =
        .ok { choice := .groq (getenvD env.groqModel "llama-3.1-8b-instant"),
              llm := client (.groq (getenvD env.groqModel "llama-3.1-8b-instant")), db := db })
    ∧ (isTruthy env.openaiKey = false → isTruthy env.groqKey = false →
        isTruthy env.googleKey = true →
      RAGAssistant.mkAssistant env client db =
        .ok { choice := .google (getenvD env.googleModel "gemini-2.0-flash"),
              llm := client (.google (getenvD env.googleModel "gemini-2.0-flash")), db := db })
    ∧ (isTruthy env.openaiKey = false → isTruthy env.groqKey = false →
        isTruthy env.googleKey = false → isTruthy env.pplxKey = true →
      RAGAssistant.mkAssistant env client db =
        .ok { choice := .perplexity (getenvD env.pplxModel "gemini-1.5-flash"),
              llm := client (.perplexity (getenvD env.pplxModel "gemini-1.5-flash")), db := db })
    ∧ (isTruthy env.openaiKey = false → isTruthy env.groqKey = false →
        isTruthy env.googleKey = false → isTruthy env.pplxKey = false →
      RAGAssistant.mkAssistant env client db = .error noKeyMsg) := by
  refine ⟨?_, ?_, ?_, ?_, ?_⟩
  · intro h1
    simp [RAGAssistant.mkAssistant, initialize_llm, h1]
  · intro h1 h2
    simp [RAGAssistant.mkAssistant, initialize_llm, h1, h2]
  · intro h1 h2 h3
    simp [RAGAssistant.mkAssistant, initialize_llm, h1, h2, h3]
  · intro h1 h2 h3 h4
    simp [RAGAssistant.mkAssistant, initialize_llm, h1, h2, h3, h4]
  · intro h1 h2 h3 h4
    simp [RAGAssistant.mkAssistant, initialize_llm, h1, h2, h3, h4]

/-- C4 witness: with Groq and Google keys both set and OpenAI unset, Groq
is selected; with no key set, construction fails with the configuration
error. -/
theorem C4_provider_priority_witness :
    RAGAssistant.mkAssistant
        ⟨none, some "groq-key", some "google-key", none, none, none, none, none⟩
        (fun _ _ => "") ⟨fun _ => [], []⟩ =
      .ok { choice := .groq "llama-3.1-8b-instant",
            llm := fun _ => "",
            db := ⟨fun _ => [], []⟩ }
    ∧ RAGAssistant.mkAssistant ⟨none, none, none, none, none, none, none, none⟩
        (fun _ _ => "") ⟨fun _ => [], []⟩ = .error noKeyMsg := by
  constructor
  · exact (C4_provider_priority
      ⟨none, some "groq-key", some "google-key", none, none, none, none, none⟩
      (fun _ _ => "") ⟨fun _ => [], []⟩).2.1 (by decide) (by decide)
  · exact (C4_provider_priority ⟨none, none, none, none, none, none, none, none⟩
      (fun _ _ => "") ⟨fun _ => [], []⟩).2.2.2.2 (by decide) (by decide) (by decide) (by decide)

/-- C1: the answer path is broken — `search` passes the per-query nested
`documents` value through, so `context_chunks` in `invoke` is a list whose
single element is the result row (a list, not a string), and
`"\n".join(context_chunks)` raises `TypeError` before the prompt is ever
rendered.  `invoke` therefore never invokes the LLM and never returns its
text: shown on the empty store and on a store holding a retrievable chunk,
where the retrieved row itself is exactly the stored text. -/
theorem C1_invoke_join_raises :
    RAGAssistant.invoke sampleAssistant "What color is the sky?" 3 =
      .error (.typeError "sequence item 0: expected str instance, list found")
    ∧ RAGAssistant.invoke skyAssistant "What color is the sky?" 3 =
      .error (.typeError "sequence item 0: expected str instance, list found")
    ∧ (VectorDB.search skyAssistant.db "What color is the sky?" 3).documents =
      [["The sky is blue."]] :=
  ⟨rfl, rfl, rfl⟩

/-- C2: the demo ingestion path is broken — `load_documents` returns raw
strings, and `VectorDB.add_documents` calls `.get` on each element, which
raises `AttributeError` for a `str`.  For a directory with one loadable
text file, the loader yields its text, and the subsequent ingestion raises
instead of storing anything. -/
theorem C2_main_ingestion_raises :
    (load_documents [⟨"a.txt", true, .ok (.txtData "hello world")⟩]).1 = ["hello world"]
    ∧ mainIngest [⟨"a.txt", true, .ok (.txtData "hello world")⟩] sampleAssistant =
        .error strGetError
    ∧ VectorDB.add_documents sampleDB [.pystr "hello world"] = .error strGetError := by
  refine ⟨rfl, rfl, rfl⟩

/-- C3: the interactive loop — `quit` (case-insensitively) terminates the
loop, but any other line makes `main` call the attribute `query`, which
`RAGAssistant` does not define (its method is `invoke`), so an
`AttributeError` escapes the loop to the top-level handler and nothing is
answered. -/
theorem C3_loop_quit_and_query_bug :
    runLoop sampleAssistant ["QuIt"] = ([], .finished)
    ∧ runLoop sampleAssistant ["What color is the sky?"] =
        ([], .uncaught "AttributeError: RAGAssistant object has no attribute query")
    ∧ lookupMethod "query" = none
    ∧ lookupMethod "invoke" ≠ none := by
  refine ⟨rfl, rfl, rfl, ?_⟩
  intro h
  cases h

/-- C9: within one `add_documents` call the generated chunk IDs
`doc_<i>_chunk_<j>` (documents enumerated from 0) are pairwise distinct;
the generated IDs depend only on the `documents` argument, not on the
prior collection, so a second call with the same documents regenerates
exactly the same IDs and the collection's ID list then contains
duplicates whenever any chunk was generated at all. -/
theorem C9_chunk_ids (st : VectorDBState) (docs : List PyDoc)
    (hdict : ∀ x ∈ docs, ∃ c m, x = PyDoc.pydict c m) :
    (idsFromIdx 0 docs).Nodup
    ∧ VectorDB.add_documents st docs =
        .ok ⟨st.embed, st.collection ++ recordsFromIdx st.embed 0 docs⟩
    ∧ (recordsFromIdx st.embed 0 docs).map (fun r => r.id) = idsFromIdx 0 docs
    ∧ VectorDB.add_documents ⟨st.embed, st.collection ++ recordsFromIdx st.embed 0 docs⟩ docs =
        .ok ⟨st.embed, (st.collection ++ recordsFromIdx st.embed 0 docs) ++
          recordsFromIdx st.embed 0 docs⟩
    ∧ (idsFromIdx 0 docs ≠ [] →
        ¬ (((st.collection ++ recordsFromIdx st.embed 0 docs) ++
            recordsFromIdx st.embed 0 docs).map (fun r => r.id)).Nodup) := by
  refine ⟨idsFromIdx_nodup docs 0, addDocumentsGo_spec docs st 0 hdict,
    map_id_recordsFromIdx st.embed docs 0, ?_, ?_⟩
  · have := addDocumentsGo_spec docs
      ⟨st.embed, st.collection ++ recordsFromIdx st.embed 0 docs⟩ 0 hdict
    simpa using this
  · intro hne hnodup
    set ids := (recordsFromIdx st.embed 0 docs).map (fun r => r.id) with hids
    have hids_ne : ids ≠ [] := by
      rw [hids, map_id_recordsFromIdx]
      exact hne
    have hmap : ((st.collection ++ recordsFromIdx st.embed 0 docs) ++
        recordsFromIdx st.embed 0 docs).map (fun r => r.id) =
        (st.collection.map (fun r => r.id) ++ ids) ++ ids := by
      simp [hids]
    rw [hmap] at hnodup
    have hsub : List.Sublist (ids ++ ids)
        ((st.collection.map (fun r => r.id) ++ ids) ++ ids) := by
      rw [List.append_assoc]
      exact List.sublist_append_right _ _
    have hdup := List.Nodup.sublist hsub hnodup
    rw [List.nodup_append] at hdup
    rcases List.exists_mem_of_ne_nil ids hids_ne with ⟨x, hx⟩
    exact hdup.2.2 hx hx

/-- C9 witness: two documents, each a single chunk, from the empty store —
the IDs of one call are distinct, and after two calls the store's ID list
has duplicates. -/
theorem C9_chunk_ids_witness :
    (idsFromIdx 0 [PyDoc.pydict (some "hello") none,
        PyDoc.pydict (some "world") (some [("k", "v")])]).Nodup
    ∧ (idsFromIdx 0 [PyDoc.pydict (some "hello") none,
        PyDoc.pydict (some "world") (some [("k", "v")])] ≠ [] →
      ¬ (((([] : List ChunkRecord) ++
            recordsFromIdx (fun _ => []) 0 [PyDoc.pydict (some "hello") none,
              PyDoc.pydict (some "world") (some [("k", "v")])]) ++
          recordsFromIdx (fun _ => []) 0 [PyDoc.pydict (some "hello") none,
            PyDoc.pydict (some "world") (some [("k", "v")])]).map (fun r => r.id)).Nodup) := by
  have h := C9_chunk_ids ⟨fun _ => [], []⟩
    [PyDoc.pydict (some "hello") none, PyDoc.pydict (some "world") (some [("k", "v")])]
    (by rintro x hx; fin_cases hx <;> exact ⟨_, _, rfl⟩)
  exact ⟨h.1, h.2.2.2.2⟩

/-- C10: `add_documents` never raises for a dict document that lacks the
`content` or `metadata` key: a missing `content` defaults to the empty
string (zero chunks, nothing stored for that document), and a missing
`metadata` defaults to the empty mapping, which every stored chunk record
of the document then carries. -/
theorem C10_missing_keys_default (st : VectorDBState) (docs : List PyDoc)
    (hdict : ∀ x ∈ docs, ∃ c m, x = PyDoc.pydict c m) :
    (∃ st', VectorDB.add_documents st docs = .ok st')
    ∧ (∀ m, VectorDB.add_documents st [PyDoc.pydict none m] = .ok st)
    ∧ (∀ c, VectorDB.add_documents st [PyDoc.pydict (some c) none] =
        .ok ⟨st.embed, st.collection ++ recordsForDoc st.embed 0 c []⟩
      ∧ ∀ r ∈ recordsForDoc st.embed 0 c [], r.metadata = []) := by
  refine ⟨⟨_, addDocumentsGo_spec docs st 0 hdict⟩, ?_, ?_⟩
  · intro m
    have h := addDocumentsGo_spec [PyDoc.pydict none m] st 0
      (by rintro x hx; fin_cases hx; exact ⟨_, _, rfl⟩)
    have hrec : recordsFromIdx st.embed 0 [PyDoc.pydict none m] = [] := by
      have hz : chunksOf "" = [] := rfl
      simp [recordsFromIdx, recordsForDoc, hz]
    rw [hrec] at h
    simpa using h
  · intro c
    constructor
    · have h := addDocumentsGo_spec [PyDoc.pydict (some c) none] st 0
        (by rintro x hx; fin_cases hx; exact ⟨_, _, rfl⟩)
      have hrec : recordsFromIdx st.embed 0 [PyDoc.pydict (some c) none] =
          recordsForDoc st.embed 0 c [] := by
        simp [recordsFromIdx]
      rw [hrec] at h
      exact h
    · intro r hr
      obtain ⟨p, _, hp⟩ := List.mem_map.mp hr
      rw [← hp]

/-- C10 witness: a document with neither key is absorbed without error and
stores nothing; a content-only document stores chunks whose metadata is
the empty mapping. -/
theorem C10_missing_keys_default_witness :
    VectorDB.add_documents (⟨fun _ => [], []⟩ : VectorDBState)
        [PyDoc.pydict none (some [("k", "v")])] = .ok ⟨fun _ => [], []⟩
    ∧ (VectorDB.add_documents (⟨fun _ => [], []⟩ : VectorDBState)
        [PyDoc.pydict (some "hi") none] =
      .ok ⟨fun _ => [], [] ++ recordsForDoc (fun _ => []) 0 "hi" []⟩) := by
  have h := C10_missing_keys_default ⟨fun _ => [], []⟩
    [PyDoc.pydict none (some [("k", "v")])]
    (by rintro x hx; fin_cases hx; exact ⟨_, _, rfl⟩)
  exact ⟨h.2.1 (some [("k", "v")]), (h.2.2 "hi").1⟩

end RagDemo
